import Mathlib

open Real

/-!
Shallow embedding of the three ROS nodes of the F1Tenth 2021-2022 repository:
`safety_node.cpp`, the wall-follow node and `point_dist.cpp`.

Machine doubles are modelled as real numbers.  `x / 0 = 0` is Lean's
convention for the divisions by zero that arise at exact quadrant boundaries
(IEEE doubles would give an infinity there); every comparison proved at such
a point is also checked against the IEEE behaviour in a comment.
-/

/-- A `sensor_msgs::LaserScan` message, restricted to the fields these nodes
read: `angle_min`, `angle_max`, `angle_increment` and `ranges`. -/
structure ScanMsg where
  angle_min : ℝ
  angle_max : ℝ
  angle_increment : ℝ
  ranges : List ℝ

/-- A `std::vector<double>` as observed through `size()` and `operator[]`.
`reserve` changes only the capacity, never `size`, and writing through
`operator[]` does not grow the vector; `data` is the backing storage, with
`data i` the double stored at offset `i` (reads of never-written offsets are
undefined in C++; the model defaults them to `0`). -/
structure CVector where
  size : ℕ
  data : ℕ → ℝ

/-- `struct car_intrinsics { float width, wheelbase, base_link; }` from
`safety_node.cpp`. -/
structure car_intrinsics where
  width : ℝ
  wheelbase : ℝ
  base_link : ℝ

/-- `struct lidar_intrinsics { double num_scans, scan_inc, min_angle,
max_angle; }` from `safety_node.cpp` (`num_scans` is a `double` there). -/
structure lidar_intrinsics where
  num_scans : ℝ
  scan_inc : ℝ
  min_angle : ℝ
  max_angle : ℝ

/-- First-quadrant branch of `compute_car_perim` (`0 < angle < pi/2`):
`min(right_side, top_right)` with `right_side = (width/2)/cos(angle)` and
`top_right = (wheelbase - base_link)/cos(pi/2 - angle)`. -/
noncomputable def quad1 (c : car_intrinsics) (angle : ℝ) : ℝ :=
  min ((c.width / 2) / Real.cos angle)
    ((c.wheelbase - c.base_link) / Real.cos (π / 2 - angle))

/-- Second-quadrant branch of `compute_car_perim` (top half, `angle ≥ pi/2`):
`min(left_side, top_left)` with `top_left = (wheelbase - base_link)/cos(angle - pi/2)`
and `left_side = (width/2)/cos(pi - angle)`. -/
noncomputable def quad2 (c : car_intrinsics) (angle : ℝ) : ℝ :=
  min ((c.width / 2) / Real.cos (π - angle))
    ((c.wheelbase - c.base_link) / Real.cos (angle - π / 2))

/-- Third-quadrant branch of `compute_car_perim` (`angle < -pi/2`):
`min(left_side, bottom_left)` with `left_side = (width/2)/cos(pi + angle)` and
`bottom_left = base_link/cos(-angle - pi/2)`. -/
noncomputable def quad3 (c : car_intrinsics) (angle : ℝ) : ℝ :=
  min ((c.width / 2) / Real.cos (π + angle))
    (c.base_link / Real.cos (-angle - π / 2))

/-- Fourth-quadrant branch of `compute_car_perim` (bottom half,
`-pi/2 ≤ angle ≤ 0`): `min(bottom_right, right_side)` with
`bottom_right = base_link/cos(pi/2 - angle)` and
`right_side = (width/2)/cos(-angle)`. -/
noncomputable def quad4 (c : car_intrinsics) (angle : ℝ) : ℝ :=
  min (c.base_link / Real.cos (π / 2 - angle))
    ((c.width / 2) / Real.cos (-angle))

/-- The body of the loop in `compute_car_perim`: the nested
`if (angle > 0.0) / if (angle < PI/2) / ...` quadrant dispatch evaluated at
the loop's `angle` variable. -/
noncomputable def perim_body (c : car_intrinsics) (angle : ℝ) : ℝ :=
  if 0 < angle then
    if angle < π / 2 then quad1 c angle else quad2 c angle
  else
    if angle < -(π / 2) then quad3 c angle else quad4 c angle

/-- The `for` loop of `compute_car_perim`.  The source initialises
`auto angle = lidar_data.min_angle` before the loop and never updates it, so
every iteration writes `perim_body car angle0` (the same value) at index `i`;
`i` runs while `i < num_scans` (a `size_t` compared against a `double`).
`fuel` bounds the number of iterations so the recursion is structural. -/
noncomputable def perim_loop (car : car_intrinsics) (angle0 num_scans : ℝ) :
    ℕ → ℕ → (ℕ → ℝ) → (ℕ → ℝ)
  | 0, _, store => store
  | fuel + 1, i, store =>
      if (i : ℝ) < num_scans then
        perim_loop car angle0 num_scans fuel (i + 1)
          (Function.update store i (perim_body car angle0))
      else store

/-- `compute_car_perim(car_data, lidar_data)` from `safety_node.cpp`.
The vector is only `reserve`d, never resized or pushed to, so its `size`
stays `0`; all writes go through out-of-bounds `operator[]` into the backing
storage.  The loop counter starts at `size_t i = lidar_data.min_angle`
(well defined in C++ only for a non-negative `min_angle`; modelled as
`⌊min_angle⌋.toNat`), and since `i` is non-negative the loop performs at most
`⌈num_scans⌉` iterations, which is the fuel supplied. -/
noncomputable def compute_car_perim (car : car_intrinsics)
    (ld : lidar_intrinsics) : CVector where
  size := 0
  data := perim_loop car ld.min_angle ld.num_scans
    (⌈ld.num_scans⌉.toNat) (⌊ld.min_angle⌋.toNat) (fun _ => 0)

/-- Lines 99-105 of `safety_node.cpp`: the lidar intrinsics extracted from the
one sample scan message.  The source assigns `shared->angle_max` to
`lidar.min_angle` (not `angle_min`), and then computes
`num_scans = (max_angle - min_angle)/scan_inc` from the fields just set,
with no `ceil`. -/
noncomputable def safety_resolve (sample : ScanMsg) : lidar_intrinsics where
  scan_inc := sample.angle_increment
  max_angle := sample.angle_max
  min_angle := sample.angle_max
  num_scans := (sample.angle_max - sample.angle_max) / sample.angle_increment

/-- The mutable members of the `Safety` class that its callbacks touch. -/
structure SafetyState where
  car_perimeter : CVector
  lidar : lidar_intrinsics
  car : car_intrinsics
  ttc_threshold : ℝ
  speed : ℝ

/-- The `Safety` constructor: `speed = 0`, `ttc_threshold = 0.01` (member
initialiser), lidar intrinsics from the sample message via `safety_resolve`,
then `num_scans` overwritten by the `scan_beams` parameter.  The constructor
calls `compute_car_perim(car, lidar)` but discards the returned vector; the
`car_perimeter` member keeps its default-constructed empty state. -/
noncomputable def Safety.init (car : car_intrinsics) (sample : ScanMsg)
    (scan_beams : ℝ) : SafetyState :=
  let ld0 := safety_resolve sample
  let ld := { ld0 with num_scans := scan_beams }
  let _discarded := compute_car_perim car ld
  { car_perimeter := ⟨0, fun _ => 0⟩
    lidar := ld
    car := car
    ttc_threshold := 0.01
    speed := 0 }

/-- An incoming message for the `Safety` node: an odometry sample carrying a
forward speed, or a laser scan. -/
inductive SafetyEvent where
  | odom (v : ℝ)
  | scan (msg : ScanMsg)

/-- Effect of one callback on the `Safety` members: `odom_callback` stores
`twist.twist.linear.x` into `speed`; `scan_callback` publishes but writes no
member. -/
def safety_step (s : SafetyState) : SafetyEvent → SafetyState
  | .odom v => { s with speed := v }
  | .scan _ => s

/-- Folding a sequence of incoming messages through the callbacks. -/
def safety_run (s : SafetyState) : List SafetyEvent → SafetyState
  | [] => s
  | e :: es => safety_run (safety_step s e) es

/-- `r_hat` from `scan_callback`:
`speed * cos(i * angle_increment + angle_min)`, the closing velocity along
beam `i`. -/
noncomputable def r_hat (speed : ℝ) (msg : ScanMsg) (i : ℕ) : ℝ :=
  speed * Real.cos ((i : ℝ) * msg.angle_increment + msg.angle_min)

/-- `ttc` from `scan_callback`:
`(scan_msg->ranges[i] - car_perimeter[i]) / r_hat`. -/
noncomputable def beam_ttc (speed : ℝ) (perim : CVector) (msg : ScanMsg)
    (i : ℕ) : ℝ :=
  (msg.ranges.getD i 0 - perim.data i) / r_hat speed msg i

/-- The loop of `scan_callback` restricted to its observable effect:
`loop_brakes … n` holds when at least one of the first `n` iterations
publishes the brake messages, i.e. has `r_hat > 0` (the `r_hat <= 0` guard
does `continue`) and `ttc < ttc_threshold`. -/
def loop_brakes (speed thr : ℝ) (perim : CVector) (msg : ScanMsg) : ℕ → Prop
  | 0 => False
  | n + 1 => loop_brakes speed thr perim msg n ∨
      (0 < r_hat speed msg n ∧ beam_ttc speed perim msg n < thr)

/-- `scan_callback` publishes the brake boolean and the zero-speed drive
command at least once: the early-return length check must pass
(`ranges.size() == car_perimeter.size()`) and some beam must trigger. -/
def scan_brakes (speed thr : ℝ) (perim : CVector) (msg : ScanMsg) : Prop :=
  msg.ranges.length = perim.size ∧
    loop_brakes speed thr perim msg msg.ranges.length

/-- The `lidar_data` struct of the wall-follow node
(`int num_scans; double min_angle, max_angle, scan_inc;`). -/
structure wf_lidar where
  num_scans : ℤ
  min_angle : ℝ
  max_angle : ℝ
  scan_inc : ℝ

/-- Lines 74-81 of the wall-follow node: intrinsics from the one sample scan,
with `num_scans = (int)ceil((max_angle - min_angle)/scan_inc)`. -/
noncomputable def wf_resolve (sample : ScanMsg) : wf_lidar where
  scan_inc := sample.angle_increment
  min_angle := sample.angle_min
  max_angle := sample.angle_max
  num_scans := ⌈(sample.angle_max - sample.angle_min) / sample.angle_increment⌉

/-- The members of the `WallFollow` class read by `lidar_cb`. -/
structure WFState where
  lidar_data : wf_lidar
  a_idx : ℤ
  b_idx : ℤ
  theta : ℝ

/-- The `WallFollow` constructor:
`b_idx = round((pi/2 - min_angle)/scan_inc)`,
`a_idx = round((pi/2 - theta - min_angle)/scan_inc)`, and then `theta` is
overwritten with the rounding-corrected value `scan_inc * (a_idx - b_idx)`. -/
noncomputable def WallFollow.init (theta0 : ℝ) (sample : ScanMsg) : WFState :=
  let ld := wf_resolve sample
  let bIdx : ℤ := round ((π / 2 - ld.min_angle) / ld.scan_inc)
  let aIdx : ℤ := round ((π / 2 - theta0 - ld.min_angle) / ld.scan_inc)
  { lidar_data := ld
    a_idx := aIdx
    b_idx := bIdx
    theta := ld.scan_inc * ((aIdx : ℝ) - (bIdx : ℝ)) }

/-- `WallFollow::lidar_cb`: reads `a = msg.ranges[a_idx]`,
`b = msg.ranges[b_idx]` with no validity filtering (the source carries the
comment `NEED TO FILTER FOR BAD DISTANCES`), and computes
`alpha = atan((a*cos(theta) - b)/(a*sin(theta)))` and `dt = b*cos(alpha)`.
The `dt_lookahead` line of the lab handout is commented out in the source and
is not computed.  A negative `int` index would be undefined in C++; the model
takes `Int.toNat`. -/
noncomputable def WallFollow.lidar_cb (s : WFState) (msg : ScanMsg) : ℝ × ℝ :=
  let a := msg.ranges.getD s.a_idx.toNat 0
  let b := msg.ranges.getD s.b_idx.toNat 0
  let alpha := Real.arctan ((a * Real.cos s.theta - b) / (a * Real.sin s.theta))
  (alpha, b * Real.cos alpha)

/-- A `point_dist::PointDist` message: a distance and the angle it was seen
at. -/
structure PDRec where
  distance : ℝ
  angle : ℝ

/-- The loop of `PointDist::scan_cb` (from `i = 1` up): the running farthest
record is replaced when `max.distance < ranges[i]` and the running closest
record when `min.distance > ranges[i]`, each taking angle
`angle_min + i*angle_increment`. -/
noncomputable def pd_loop (amin inc : ℝ) :
    List ℝ → ℕ → PDRec → PDRec → PDRec × PDRec
  | [], _, mx, mn => (mx, mn)
  | r :: rest, i, mx, mn =>
      pd_loop amin inc rest (i + 1)
        (if mx.distance < r then ⟨r, amin + (i : ℝ) * inc⟩ else mx)
        (if mn.distance > r then ⟨r, amin + (i : ℝ) * inc⟩ else mn)

/-- `PointDist::scan_cb`: both records start from `ranges[0]` at angle
`angle_min`, then the loop scans indices `1 ≤ i < ranges.size()`; the pair
`(farthest, closest)` is what gets published.  (`ranges[0]` on an empty
message would be undefined in C++; the model defaults it to `0`.) -/
noncomputable def point_dist_scan_cb (msg : ScanMsg) : PDRec × PDRec :=
  pd_loop msg.angle_min msg.angle_increment msg.ranges.tail 1
    ⟨msg.ranges.getD 0 0, msg.angle_min⟩ ⟨msg.ranges.getD 0 0, msg.angle_min⟩

/-- Modelled from the spec: the quadrant rule of section 4.2, stated there as
a per-angle contract for the perimeter table (the claim compares the table
the code produces against this formula evaluated at each beam's own angle). -/
noncomputable def spec_perim (c : car_intrinsics) (a : ℝ) : ℝ :=
  if 0 < a ∧ a < π / 2 then
    min ((c.width / 2) / Real.cos a)
      ((c.wheelbase - c.base_link) / Real.cos (π / 2 - a))
  else if π / 2 ≤ a ∧ a < π then
    min ((c.wheelbase - c.base_link) / Real.cos (a - π / 2))
      ((c.width / 2) / Real.cos (π - a))
  else if -π < a ∧ a < -(π / 2) then
    min ((c.width / 2) / Real.cos (π + a))
      (c.base_link / Real.cos (-a - π / 2))
  else
    min (c.base_link / Real.cos (π / 2 - a))
      ((c.width / 2) / Real.cos (-a))

/-- The sample car of the spec's test scenarios:
`width = 0.2`, `wheelbase = 0.33`, `base_link_offset = 0.05`. -/
noncomputable def car0 : car_intrinsics := ⟨0.2, 0.33, 0.05⟩

/-- A two-beam lidar with `min_angle = 0` and unit increment (a configuration
for which the `size_t` cast in the loop header of `compute_car_perim` is well
defined). -/
noncomputable def lidar0 : lidar_intrinsics := ⟨2, 1, 0, 2⟩

/-- A one-entry perimeter table holding `0.3`, the perimeter value of the
spec's brake scenarios. -/
noncomputable def perim1 : CVector := ⟨1, fun _ => 0.3⟩

/-- The spec's first brake scenario frame: one beam at angle `0`
(`angle_min = 0`) reading `1.0` m. -/
noncomputable def msg_far : ScanMsg := ⟨0, 0, 1, [1]⟩

/-- The spec's second brake scenario frame: one beam at angle `0` reading
`0.31` m. -/
noncomputable def msg_near : ScanMsg := ⟨0, 0, 1, [0.31]⟩

/-- The scan loop publishes among its first `n` iterations exactly when some
beam `i < n` has positive closing velocity and `ttc` below the threshold. -/
lemma loop_brakes_iff (speed thr : ℝ) (perim : CVector) (msg : ScanMsg) :
    ∀ n : ℕ, loop_brakes speed thr perim msg n ↔
      ∃ i, i < n ∧ 0 < r_hat speed msg i ∧
        beam_ttc speed perim msg i < thr := by
  intro n
  induction n with
  | zero => simp [loop_brakes]
  | succ k ih =>
      simp only [loop_brakes, ih]
      constructor
      · rintro (⟨i, hi, h1, h2⟩ | ⟨h1, h2⟩)
        · exact ⟨i, Nat.lt_succ_of_lt hi, h1, h2⟩
        · exact ⟨k, Nat.lt_succ_self k, h1, h2⟩
      · rintro ⟨i, hi, h1, h2⟩
        rcases Nat.lt_succ_iff_lt_or_eq.mp hi with h | h
        · exact Or.inl ⟨i, h, h1, h2⟩
        · exact Or.inr (h ▸ ⟨h1, h2⟩)

/-- `scan_callback` publishes the brake exactly when the length check passes
and some beam triggers. -/
lemma scan_brakes_iff (speed thr : ℝ) (perim : CVector) (msg : ScanMsg) :
    scan_brakes speed thr perim msg ↔
      (msg.ranges.length = perim.size ∧
        ∃ i, i < msg.ranges.length ∧ 0 < r_hat speed msg i ∧
          beam_ttc speed perim msg i < thr) := by
  unfold scan_brakes
  rw [loop_brakes_iff]

/-- C1: on a frame whose `ranges` length equals the perimeter table length,
`scan_callback` engages the brake iff some beam `i` has
`r_hat = speed*cos(angle_min + i*angle_increment) > 0` and
`ttc = (ranges[i] - car_perimeter[i])/r_hat < ttc_threshold`; in particular
the spec's scenario with `speed = 2`, beam angle `0`, `range = 1.0`,
`perimeter = 0.3`, `ttc_threshold = 0.01` does not brake, and the same
scenario with `range = 0.31` brakes. -/
theorem C1_brake_trigger_law :
    (∀ (speed thr : ℝ) (perim : CVector) (msg : ScanMsg),
        msg.ranges.length = perim.size →
        (scan_brakes speed thr perim msg ↔
          ∃ i, i < msg.ranges.length ∧ 0 < r_hat speed msg i ∧
            beam_ttc speed perim msg i < thr)) ∧
    ¬ scan_brakes 2 0.01 perim1 msg_far ∧
    scan_brakes 2 0.01 perim1 msg_near := by
  refine ⟨fun speed thr perim msg h => ?_, ?_, ?_⟩
  · rw [scan_brakes_iff]
    simp [h]
  · rw [scan_brakes_iff]
    rintro ⟨-, i, hi, -, httc⟩
    rw [show msg_far.ranges.length = 1 from rfl, Nat.lt_one_iff] at hi
    subst hi
    rw [beam_ttc, r_hat] at httc
    norm_num [msg_far, perim1, Real.cos_zero] at httc
  · rw [scan_brakes_iff]
    refine ⟨rfl, 0, ?_, ?_, ?_⟩
    · rw [show msg_near.ranges.length = 1 from rfl]
      norm_num
    · rw [r_hat]
      norm_num [msg_near, Real.cos_zero]
    · rw [beam_ttc, r_hat]
      norm_num [msg_near, perim1, Real.cos_zero]

/-- Witness for C1: the general brake law applied to the concrete first
scenario frame, whose length hypothesis holds by computation. -/
theorem C1_brake_trigger_law_witness :
    msg_far.ranges.length = perim1.size ∧
      (scan_brakes 2 0.01 perim1 msg_far ↔
        ∃ i, i < msg_far.ranges.length ∧ 0 < r_hat 2 msg_far i ∧
          beam_ttc 2 perim1 msg_far i < 0.01) :=
  ⟨rfl, C1_brake_trigger_law.1 2 0.01 perim1 msg_far rfl⟩

/-- A frame whose single beam (at angle `0`) reads `0`: a non-positive,
invalid range measurement. -/
noncomputable def msg_invalid : ScanMsg := ⟨0, 0, 1, [0]⟩

/-- A `WallFollow` member state with `a_idx = 0`, `b_idx = 1` and corrected
`theta = pi/2`. -/
noncomputable def wf_state_bad : WFState := ⟨⟨0, 0, 0, 0⟩, 0, 1, π / 2⟩

/-- A frame whose `b` beam reads `-1`: an invalid (negative) range. -/
noncomputable def msg_bad_beam : ScanMsg := ⟨0, 0, 1, [1, -1]⟩

/-- C2 (the code violates it): `scan_callback` does not exclude invalid
ranges — with `speed = 2`, threshold `0.01`, perimeter `0.3` and a single
beam reading `0` (non-positive, hence invalid) it computes
`ttc = (0 - 0.3)/2 < 0.01` and engages the brake; and the wall estimator
does not skip on an invalid beam — with `b = -1` it computes the garbage
distance `dt = -sqrt 2 / 2 < 0` instead of skipping the cycle. -/
theorem C2_invalid_range_not_excluded :
    scan_brakes 2 0.01 perim1 msg_invalid ∧
      (WallFollow.lidar_cb wf_state_bad msg_bad_beam).2 < 0 := by
  constructor
  · rw [scan_brakes_iff]
    refine ⟨rfl, 0, ?_, ?_, ?_⟩
    · rw [show msg_invalid.ranges.length = 1 from rfl]
      norm_num
    · rw [r_hat]
      norm_num [msg_invalid, Real.cos_zero]
    · rw [beam_ttc, r_hat]
      norm_num [msg_invalid, perim1, Real.cos_zero]
  · rw [WallFollow.lidar_cb]
    simp only [wf_state_bad, msg_bad_beam, Int.toNat_zero, Int.toNat_one,
      List.getD_cons_zero, List.getD_cons_succ]
    rw [Real.cos_pi_div_two, Real.sin_pi_div_two]
    norm_num [Real.arctan_one, Real.cos_pi_div_four]

/-- At angle `0` the loop body takes the fourth-quadrant branch and, with
`cos(pi/2) = 0` making the `bottom_right` projection degenerate, evaluates
to `0` on the sample car.  (IEEE doubles would give `min(+huge, 0.1) = 0.1`;
either way the value differs from the first-quadrant value at beam angle 1
used below.) -/
lemma perim_body_car0_zero : perim_body car0 0 = 0 := by
  have hneg : ¬((0 : ℝ) < -(π / 2)) := not_lt.mpr (by nlinarith [Real.pi_pos])
  rw [perim_body, if_neg (lt_irrefl (0 : ℝ)), if_neg hneg, quad4]
  rw [sub_zero, neg_zero, Real.cos_pi_div_two, Real.cos_zero]
  norm_num [car0, min_def]

/-- C3 (the code violates it): the entry the loop writes at beam index `1`
is `perim_body car0 min_angle = 0`, because the loop's `angle` variable is
initialised to `min_angle` and never advanced, whereas the spec's quadrant
formula at that beam's own angle `min_angle + 1*scan_inc = 1` is strictly
positive. -/
theorem C3_perimeter_entry_wrong_angle :
    (compute_car_perim car0 lidar0).data 1 = 0 ∧
      0 < spec_perim car0 (lidar0.min_angle + 1 * lidar0.scan_inc) := by
  constructor
  · show perim_loop car0 lidar0.min_angle lidar0.num_scans
        (⌈lidar0.num_scans⌉.toNat) (⌊lidar0.min_angle⌋.toNat) (fun _ => 0) 1 = 0
    rw [show lidar0.min_angle = 0 from rfl, show lidar0.num_scans = 2 from rfl]
    rw [show (⌈(2 : ℝ)⌉).toNat = 2 by simp, show (⌊(0 : ℝ)⌋).toNat = 0 by simp]
    rw [show (2 : ℕ) = 1 + 1 from rfl, perim_loop,
      if_pos (by norm_num : ((0 : ℕ) : ℝ) < 2)]
    rw [show (1 : ℕ) = 0 + 1 from rfl, perim_loop,
      if_pos (by norm_num : ((0 + 1 : ℕ) : ℝ) < 2)]
    rw [perim_loop, Function.update_same]
    exact perim_body_car0_zero
  · rw [show lidar0.min_angle + 1 * lidar0.scan_inc = 1 by norm_num [lidar0]]
    have h1 : (1 : ℝ) < π / 2 := by nlinarith [Real.pi_gt_three]
    rw [spec_perim, if_pos ⟨one_pos, h1⟩]
    have hc1 : 0 < Real.cos 1 :=
      Real.cos_pos_of_mem_Ioo ⟨by nlinarith [Real.pi_gt_three], h1⟩
    have hc2 : 0 < Real.cos (π / 2 - 1) :=
      Real.cos_pos_of_mem_Ioo ⟨by nlinarith [Real.pi_gt_three], by nlinarith⟩
    rw [lt_min_iff]
    constructor
    · exact div_pos (by norm_num [car0]) hc1
    · exact div_pos (by norm_num [car0]) hc2

/-- C4 (the code violates it): the vector `compute_car_perim` returns has
size `0` for every input (it is only `reserve`d, never grown), so on the
two-beam lidar its length `0` differs from `num_beams = 2`. -/
theorem C4_perimeter_table_size :
    (∀ (car : car_intrinsics) (ld : lidar_intrinsics),
        (compute_car_perim car ld).size = 0) ∧
    ((compute_car_perim car0 lidar0).size : ℝ) ≠ lidar0.num_scans := by
  refine ⟨fun car ld => rfl, ?_⟩
  norm_num [compute_car_perim, lidar0]

/-- A sample frame with `angle_min = -1`, `angle_max = 1`,
`angle_increment = 1/4`, for which the spec's formula gives
`num_beams = ceil(2/(1/4)) = 8`. -/
noncomputable def sample5 : ScanMsg := ⟨-1, 1, 1 / 4, []⟩

/-- C5 (the safety node violates it): the wall-follow constructor computes
`num_scans = ceil((angle_max - angle_min)/angle_increment)` from the sample
frame's own bounds, but the `Safety` constructor assigns `angle_max` to
`min_angle`, so its `num_scans = (max - max)/inc = 0` for every sample; on
the concrete sample the two give `8` and `0`. -/
theorem C5_num_beams_resolver :
    (∀ sample : ScanMsg, (wf_resolve sample).num_scans =
        ⌈(sample.angle_max - sample.angle_min) / sample.angle_increment⌉) ∧
    (∀ sample : ScanMsg,
        (safety_resolve sample).min_angle = sample.angle_max ∧
        (safety_resolve sample).num_scans = 0) ∧
    (wf_resolve sample5).num_scans = 8 ∧
    (safety_resolve sample5).num_scans = 0 := by
  refine ⟨fun _ => rfl, fun s => ⟨rfl, by simp [safety_resolve]⟩, ?_,
    by simp [safety_resolve]⟩
  show ⌈(sample5.angle_max - sample5.angle_min) / sample5.angle_increment⌉ = 8
  norm_num [sample5]

/-- C6: on each frame the wall estimator computes
`alpha = atan((a*cos(theta) - b)/(a*sin(theta)))` with the
rounding-corrected `theta = scan_inc*(a_idx - b_idx)` set by the
constructor, and `dt = b*cos(alpha)`.  (The `dt_lookahead` projection of the
claim is only a commented-out line in the source and is not computed.) -/
theorem C6_wall_estimator_formulas :
    ∀ (theta0 : ℝ) (sample msg : ScanMsg),
      (WallFollow.lidar_cb (WallFollow.init theta0 sample) msg).1 =
        Real.arctan
          ((msg.ranges.getD (WallFollow.init theta0 sample).a_idx.toNat 0 *
              Real.cos ((WallFollow.init theta0 sample).theta) -
            msg.ranges.getD (WallFollow.init theta0 sample).b_idx.toNat 0) /
          (msg.ranges.getD (WallFollow.init theta0 sample).a_idx.toNat 0 *
              Real.sin ((WallFollow.init theta0 sample).theta))) ∧
      (WallFollow.lidar_cb (WallFollow.init theta0 sample) msg).2 =
        msg.ranges.getD (WallFollow.init theta0 sample).b_idx.toNat 0 *
          Real.cos ((WallFollow.lidar_cb (WallFollow.init theta0 sample) msg).1) ∧
      (WallFollow.init theta0 sample).theta =
        sample.angle_increment *
          (((round ((π / 2 - theta0 - sample.angle_min) /
              sample.angle_increment) : ℤ) : ℝ) -
           ((round ((π / 2 - sample.angle_min) /
              sample.angle_increment) : ℤ) : ℝ)) :=
  fun _ _ _ => ⟨rfl, rfl, rfl⟩

/-- A frame whose single beam at angle `0` reads `0.2` m, closer than the
`0.3` m perimeter entry: the numerator of `ttc` is negative. -/
noncomputable def msg_inside : ScanMsg := ⟨0, 0, 1, [0.2]⟩

/-- Counterexample to C7 as stated: with `range = 0.2` below
`perimeter = 0.3` (closing velocity positive at both speeds), raising the
speed from `1` to `2` strictly increases the computed `ttc`
(`-0.1` to `-0.05`) instead of decreasing it. -/
theorem C7_ttc_monotonicity_cex :
    0 < r_hat 1 msg_inside 0 ∧ 0 < r_hat 2 msg_inside 0 ∧
      beam_ttc 1 perim1 msg_inside 0 < beam_ttc 2 perim1 msg_inside 0 := by
  refine ⟨?_, ?_, ?_⟩ <;>
    norm_num [r_hat, beam_ttc, msg_inside, perim1, Real.cos_zero]

/-- C7 amended: for fixed `range[i]`, `perimeter_table[i]` and beam angle
with positive cosine, `ttc` is strictly decreasing in the speed provided
additionally `range[i] > perimeter_table[i]` (with a negative numerator the
code's `ttc` is negative and strictly increases with speed). -/
theorem C7_ttc_monotonicity_amended :
    ∀ (msg : ScanMsg) (perim : CVector) (i : ℕ) (s1 s2 : ℝ),
      0 < s1 → s1 < s2 →
      0 < Real.cos ((i : ℝ) * msg.angle_increment + msg.angle_min) →
      perim.data i < msg.ranges.getD i 0 →
      beam_ttc s2 perim msg i < beam_ttc s1 perim msg i := by
  intro msg perim i s1 s2 hs1 h12 hc hd
  unfold beam_ttc r_hat
  exact div_lt_div_of_pos_left (by linarith) (mul_pos hs1 hc)
    (mul_lt_mul_of_pos_right h12 hc)

/-- Witness for the amended C7: on the first spec scenario
(`range = 1.0 > perimeter = 0.3`, beam angle `0`) the `ttc` at speed `2` is
below the `ttc` at speed `1`. -/
theorem C7_ttc_monotonicity_witness :
    (0 : ℝ) < 1 ∧ (1 : ℝ) < 2 ∧
      0 < Real.cos (((0 : ℕ) : ℝ) * msg_far.angle_increment + msg_far.angle_min) ∧
      perim1.data 0 < msg_far.ranges.getD 0 0 ∧
      beam_ttc 2 perim1 msg_far 0 < beam_ttc 1 perim1 msg_far 0 :=
  ⟨by norm_num, by norm_num, by norm_num [msg_far, Real.cos_zero],
    by norm_num [msg_far, perim1],
    C7_ttc_monotonicity_amended msg_far perim1 0 1 2 (by norm_num) (by norm_num)
      (by norm_num [msg_far, Real.cos_zero]) (by norm_num [msg_far, perim1])⟩

/-- Counterexample to C8 as stated: at the quadrant boundary `-pi/2` the
third- and fourth-quadrant formulas disagree on the sample car — the fourth
gives `min(base_link/cos(pi), width/2/cos(pi/2)) = -0.05` while the third
gives `min(width/2/cos(pi/2), base_link/cos(0)) = 0`.  (IEEE doubles give
`0.05` vs `-0.05` there — a genuine jump of `base_link` magnitude either
way.) -/
theorem C8_perimeter_continuity_cex :
    quad3 car0 (-(π / 2)) ≠ quad4 car0 (-(π / 2)) := by
  have h1 : π + -(π / 2) = π / 2 := by ring
  have h2 : -(-(π / 2)) - π / 2 = 0 := by ring
  have h3 : π / 2 - -(π / 2) = π := by ring
  have h4 : -(-(π / 2)) = π / 2 := by ring
  rw [quad3, quad4, h1, h2, h3, h4, Real.cos_pi_div_two, Real.cos_zero,
    Real.cos_pi]
  norm_num [car0, min_def]

/-- C8 amended: the adjacent quadrant formulas of `compute_car_perim` agree
at the boundaries `0`, `pi/2` and `pi`, but at `-pi/2` they disagree for any
car with positive `base_link` (the fourth-quadrant projection
`base_link/cos(pi/2 - angle)` turns negative below angle `0`), so the
piecewise function is discontinuous at that one boundary. -/
theorem C8_perimeter_boundaries_amended :
    ∀ c : car_intrinsics,
      quad1 c 0 = quad4 c 0 ∧
      quad1 c (π / 2) = quad2 c (π / 2) ∧
      quad2 c π = quad3 c (-π) ∧
      (0 < c.base_link → quad3 c (-(π / 2)) ≠ quad4 c (-(π / 2))) := by
  intro c
  refine ⟨?_, ?_, ?_, ?_⟩
  · rw [quad1, quad4, sub_zero, neg_zero, Real.cos_zero, Real.cos_pi_div_two]
    rw [div_zero, div_zero, div_one]
    exact min_comm _ _
  · rw [quad1, quad2, sub_half, sub_self]
  · have e1 : π - π = 0 := by ring
    have e2 : π + -π = 0 := by ring
    have e3 : -(-π) - π / 2 = π / 2 := by ring
    rw [quad2, quad3, e1, e2, e3, sub_half, Real.cos_zero, Real.cos_pi_div_two]
    rw [div_zero, div_zero]
  · intro hB
    have e1 : π + -(π / 2) = π / 2 := by ring
    have e2 : -(-(π / 2)) - π / 2 = 0 := by ring
    have e3 : π / 2 - -(π / 2) = π := by ring
    have e4 : -(-(π / 2)) = π / 2 := by ring
    rw [quad3, quad4, e1, e2, e3, e4, Real.cos_pi_div_two, Real.cos_zero,
      Real.cos_pi]
    rw [div_zero, div_one, show c.base_link / (-1 : ℝ) = -c.base_link by ring]
    rw [min_eq_left hB.le, min_eq_left (by linarith : -c.base_link ≤ 0)]
    exact ne_of_gt (by linarith)

/-- Witness for the amended C8: the sample car has positive `base_link`, and
the two formulas indeed disagree at `-pi/2` on it. -/
theorem C8_perimeter_boundaries_witness :
    0 < car0.base_link ∧ quad3 car0 (-(π / 2)) ≠ quad4 car0 (-(π / 2)) :=
  ⟨by norm_num [car0],
    (C8_perimeter_boundaries_amended car0).2.2.2 (by norm_num [car0])⟩

/-- Neither callback of the `Safety` node ever writes the `car_perimeter`
member, so it is invariant along any run. -/
lemma safety_run_perimeter :
    ∀ (evs : List SafetyEvent) (s : SafetyState),
      (safety_run s evs).car_perimeter = s.car_perimeter := by
  intro evs
  induction evs with
  | nil => intro s; rfl
  | cons e es ih =>
      intro s
      show (safety_run (safety_step s e) es).car_perimeter = s.car_perimeter
      rw [ih]
      cases e <;> rfl

/-- C9: along every run of the `Safety` node from its constructor, the
`car_perimeter` member stays the default-constructed empty vector of size
`0` (the constructor discards the vector `compute_car_perim` returns), so
every frame with non-empty `ranges` fails the length check and no frame at
all can make `scan_callback` publish a brake message. -/
theorem C9_brake_never_published :
    ∀ (car : car_intrinsics) (sample : ScanMsg) (scan_beams : ℝ)
      (evs : List SafetyEvent),
      (safety_run (Safety.init car sample scan_beams) evs).car_perimeter.size
          = 0 ∧
      (∀ msg : ScanMsg, msg.ranges = [] ∨
        msg.ranges.length ≠
          (safety_run (Safety.init car sample scan_beams) evs).car_perimeter.size) ∧
      (∀ msg : ScanMsg,
        ¬ scan_brakes (safety_run (Safety.init car sample scan_beams) evs).speed
            (safety_run (Safety.init car sample scan_beams) evs).ttc_threshold
            (safety_run (Safety.init car sample scan_beams) evs).car_perimeter
            msg) := by
  intro car sample scan_beams evs
  have hperim :
      (safety_run (Safety.init car sample scan_beams) evs).car_perimeter =
        ⟨0, fun _ => 0⟩ := by
    rw [safety_run_perimeter]
    rfl
  refine ⟨by rw [hperim], fun msg => ?_, fun msg => ?_⟩
  · cases h : msg.ranges with
    | nil => exact Or.inl rfl
    | cons a l =>
        right
        rw [hperim]
        simp
  · rw [scan_brakes_iff]
    rintro ⟨hlen, i, hi, -⟩
    rw [hperim] at hlen
    simp only [] at hlen
    omega

/-- Witness for C9: from the constructor run on the sample car and frame,
with no further events, the second spec scenario frame cannot trigger a
brake publication. -/
theorem C9_brake_never_published_witness :
    ¬ scan_brakes (safety_run (Safety.init car0 msg_far 2) []).speed
        (safety_run (Safety.init car0 msg_far 2) []).ttc_threshold
        (safety_run (Safety.init car0 msg_far 2) []).car_perimeter msg_near :=
  (C9_brake_never_published car0 msg_far 2 []).2.2 msg_near

/-- Invariant of the `scan_cb` loop, farthest side: starting from
accumulator `mx` at loop index `i`, the final farthest record either is `mx`
itself (everything seen is at most `mx.distance`) or carries the value and
angle of the first element of `rest` strictly exceeding `mx.distance` and
everything after it, i.e. of the least new maximum. -/
lemma pd_loop_max (amin inc : ℝ) (rest : List ℝ) :
    ∀ (i : ℕ) (mx mn : PDRec),
      ((pd_loop amin inc rest i mx mn).1 = mx ∧
        (∀ m, m < rest.length → rest.getD m 0 ≤ mx.distance)) ∨
      (∃ j, j < rest.length ∧
        (pd_loop amin inc rest i mx mn).1.distance = rest.getD j 0 ∧
        (pd_loop amin inc rest i mx mn).1.angle = amin + ((i + j : ℕ) : ℝ) * inc ∧
        mx.distance < rest.getD j 0 ∧
        (∀ m, m < rest.length → rest.getD m 0 ≤ rest.getD j 0) ∧
        (∀ m, m < j → rest.getD m 0 < rest.getD j 0)) := by
  induction rest with
  | nil =>
      intro i mx mn
      exact Or.inl ⟨rfl, fun m hm => absurd hm (Nat.not_lt_zero m)⟩
  | cons r rest ih =>
      intro i mx mn
      rw [pd_loop]
      by_cases hcmp : mx.distance < r
      · rw [if_pos hcmp]
        rcases ih (i + 1) ⟨r, amin + (i : ℝ) * inc⟩
            (if mn.distance > r then ⟨r, amin + (i : ℝ) * inc⟩ else mn) with
          ⟨heq, hbound⟩ | ⟨j, hj, hd, ha, hgt, hbound, hfirst⟩
        · right
          refine ⟨0, by simp, ?_, ?_, by simpa using hcmp, ?_, ?_⟩
          · rw [heq]
            simp
          · rw [heq]
            simp
          · intro m hm
            cases m with
            | zero => simp
            | succ k =>
                rw [List.getD_cons_succ, List.getD_cons_zero]
                simpa using hbound k (by simpa using hm)
          · intro m hm
            exact absurd hm (Nat.not_lt_zero m)
        · right
          have hrj : r < rest.getD j 0 := by simpa using hgt
          refine ⟨j + 1, by simpa using Nat.succ_lt_succ hj, ?_, ?_, ?_, ?_, ?_⟩
          · rw [List.getD_cons_succ]
            exact hd
          · rw [ha, show i + 1 + j = i + (j + 1) by omega]
          · rw [List.getD_cons_succ]
            exact lt_trans hcmp hrj
          · intro m hm
            cases m with
            | zero =>
                rw [List.getD_cons_zero, List.getD_cons_succ]
                exact le_of_lt hrj
            | succ k =>
                rw [List.getD_cons_succ, List.getD_cons_succ]
                exact hbound k (by simpa using hm)
          · intro m hm
            cases m with
            | zero =>
                rw [List.getD_cons_zero, List.getD_cons_succ]
                exact hrj
            | succ k =>
                rw [List.getD_cons_succ, List.getD_cons_succ]
                exact hfirst k (by omega)
      · rw [if_neg hcmp]
        have hr : r ≤ mx.distance := not_lt.mp hcmp
        rcases ih (i + 1) mx
            (if mn.distance > r then ⟨r, amin + (i : ℝ) * inc⟩ else mn) with
          ⟨heq, hbound⟩ | ⟨j, hj, hd, ha, hgt, hbound, hfirst⟩
        · left
          refine ⟨heq, ?_⟩
          intro m hm
          cases m with
          | zero => simpa using hr
          | succ k =>
              rw [List.getD_cons_succ]
              exact hbound k (by simpa using hm)
        · right
          refine ⟨j + 1, by simpa using Nat.succ_lt_succ hj, ?_, ?_, ?_, ?_, ?_⟩
          · rw [List.getD_cons_succ]
            exact hd
          · rw [ha, show i + 1 + j = i + (j + 1) by omega]
          · rw [List.getD_cons_succ]
            exact hgt
          · intro m hm
            cases m with
            | zero =>
                rw [List.getD_cons_zero, List.getD_cons_succ]
                exact le_trans hr (le_of_lt hgt)
            | succ k =>
                rw [List.getD_cons_succ, List.getD_cons_succ]
                exact hbound k (by simpa using hm)
          · intro m hm
            cases m with
            | zero =>
                rw [List.getD_cons_zero, List.getD_cons_succ]
                exact lt_of_le_of_lt hr hgt
            | succ k =>
                rw [List.getD_cons_succ, List.getD_cons_succ]
                exact hfirst k (by omega)

/-- Invariant of the `scan_cb` loop, closest side: dual of `pd_loop_max`
for the running minimum record. -/
lemma pd_loop_min (amin inc : ℝ) (rest : List ℝ) :
    ∀ (i : ℕ) (mx mn : PDRec),
      ((pd_loop amin inc rest i mx mn).2 = mn ∧
        (∀ m, m < rest.length → mn.distance ≤ rest.getD m 0)) ∨
      (∃ j, j < rest.length ∧
        (pd_loop amin inc rest i mx mn).2.distance = rest.getD j 0 ∧
        (pd_loop amin inc rest i mx mn).2.angle = amin + ((i + j : ℕ) : ℝ) * inc ∧
        rest.getD j 0 < mn.distance ∧
        (∀ m, m < rest.length → rest.getD j 0 ≤ rest.getD m 0) ∧
        (∀ m, m < j → rest.getD j 0 < rest.getD m 0)) := by
  induction rest with
  | nil =>
      intro i mx mn
      exact Or.inl ⟨rfl, fun m hm => absurd hm (Nat.not_lt_zero m)⟩
  | cons r rest ih =>
      intro i mx mn
      rw [pd_loop]
      by_cases hcmp : mn.distance > r
      · rw [if_pos hcmp]
        rcases ih (i + 1)
            (if mx.distance < r then ⟨r, amin + (i : ℝ) * inc⟩ else mx)
            ⟨r, amin + (i : ℝ) * inc⟩ with
          ⟨heq, hbound⟩ | ⟨j, hj, hd, ha, hlt, hbound, hfirst⟩
        · right
          refine ⟨0, by simp, ?_, ?_, by simpa using hcmp, ?_, ?_⟩
          · rw [heq]
            simp
          · rw [heq]
            simp
          · intro m hm
            cases m with
            | zero => simp
            | succ k =>
                rw [List.getD_cons_succ, List.getD_cons_zero]
                simpa using hbound k (by simpa using hm)
          · intro m hm
            exact absurd hm (Nat.not_lt_zero m)
        · right
          have hrj : rest.getD j 0 < r := by simpa using hlt
          refine ⟨j + 1, by simpa using Nat.succ_lt_succ hj, ?_, ?_, ?_, ?_, ?_⟩
          · rw [List.getD_cons_succ]
            exact hd
          · rw [ha, show i + 1 + j = i + (j + 1) by omega]
          · rw [List.getD_cons_succ]
            exact lt_trans hrj hcmp
          · intro m hm
            cases m with
            | zero =>
                rw [List.getD_cons_zero, List.getD_cons_succ]
                exact le_of_lt hrj
            | succ k =>
                rw [List.getD_cons_succ, List.getD_cons_succ]
                exact hbound k (by simpa using hm)
          · intro m hm
            cases m with
            | zero =>
                rw [List.getD_cons_zero, List.getD_cons_succ]
                exact hrj
            | succ k =>
                rw [List.getD_cons_succ, List.getD_cons_succ]
                exact hfirst k (by omega)
      · rw [if_neg hcmp]
        have hr : mn.distance ≤ r := not_lt.mp hcmp
        rcases ih (i + 1)
            (if mx.distance < r then ⟨r, amin + (i : ℝ) * inc⟩ else mx)
            mn with
          ⟨heq, hbound⟩ | ⟨j, hj, hd, ha, hlt, hbound, hfirst⟩
        · left
          refine ⟨heq, ?_⟩
          intro m hm
          cases m with
          | zero => simpa using hr
          | succ k =>
              rw [List.getD_cons_succ]
              exact hbound k (by simpa using hm)
        · right
          refine ⟨j + 1, by simpa using Nat.succ_lt_succ hj, ?_, ?_, ?_, ?_, ?_⟩
          · rw [List.getD_cons_succ]
            exact hd
          · rw [ha, show i + 1 + j = i + (j + 1) by omega]
          · rw [List.getD_cons_succ]
            exact hlt
          · intro m hm
            cases m with
            | zero =>
                rw [List.getD_cons_zero, List.getD_cons_succ]
                exact le_of_lt (lt_of_lt_of_le hlt hr)
            | succ k =>
                rw [List.getD_cons_succ, List.getD_cons_succ]
                exact hbound k (by simpa using hm)
          · intro m hm
            cases m with
            | zero =>
                rw [List.getD_cons_zero, List.getD_cons_succ]
                exact lt_of_lt_of_le hlt hr
            | succ k =>
                rw [List.getD_cons_succ, List.getD_cons_succ]
                exact hfirst k (by omega)

/-- C10: on a frame with non-empty `ranges`, `scan_cb` publishes a farthest
record and a closest record whose distances are the maximum resp. minimum of
`ranges` and whose angles are `angle_min + i*angle_increment` for the
smallest index `i` attaining each extremum. -/
theorem C10_point_dist_extrema :
    ∀ (amin amax inc : ℝ) (l : List ℝ), l ≠ [] →
      (∃ j, j < l.length ∧
        (point_dist_scan_cb ⟨amin, amax, inc, l⟩).1.distance = l.getD j 0 ∧
        (point_dist_scan_cb ⟨amin, amax, inc, l⟩).1.angle = amin + (j : ℝ) * inc ∧
        (∀ m, m < l.length → l.getD m 0 ≤ l.getD j 0) ∧
        (∀ m, m < j → l.getD m 0 < l.getD j 0)) ∧
      (∃ k, k < l.length ∧
        (point_dist_scan_cb ⟨amin, amax, inc, l⟩).2.distance = l.getD k 0 ∧
        (point_dist_scan_cb ⟨amin, amax, inc, l⟩).2.angle = amin + (k : ℝ) * inc ∧
        (∀ m, m < l.length → l.getD k 0 ≤ l.getD m 0) ∧
        (∀ m, m < k → l.getD k 0 < l.getD m 0)) := by
  intro amin amax inc l hl
  rcases l with _ | ⟨h0, t⟩
  · exact absurd rfl hl
  have hcb : point_dist_scan_cb ⟨amin, amax, inc, h0 :: t⟩ =
      pd_loop amin inc t 1 ⟨h0, amin⟩ ⟨h0, amin⟩ := rfl
  constructor
  · rcases pd_loop_max amin inc t 1 ⟨h0, amin⟩ ⟨h0, amin⟩ with
      ⟨heq, hbound⟩ | ⟨j, hj, hd, ha, hgt, hbound, hfirst⟩
    · refine ⟨0, by simp, ?_, ?_, ?_, fun m hm => absurd hm (Nat.not_lt_zero m)⟩
      · rw [hcb, heq]
        simp
      · rw [hcb, heq]
        simp
      · intro m hm
        cases m with
        | zero => simp
        | succ k =>
            rw [List.getD_cons_succ, List.getD_cons_zero]
            simpa using hbound k (by simpa using hm)
    · refine ⟨j + 1, by simpa using Nat.succ_lt_succ hj, ?_, ?_, ?_, ?_⟩
      · rw [hcb, List.getD_cons_succ]
        exact hd
      · rw [hcb, ha, show 1 + j = j + 1 by omega]
      · intro m hm
        cases m with
        | zero =>
            rw [List.getD_cons_zero, List.getD_cons_succ]
            exact le_of_lt (by simpa using hgt)
        | succ k =>
            rw [List.getD_cons_succ, List.getD_cons_succ]
            exact hbound k (by simpa using hm)
      · intro m hm
        cases m with
        | zero =>
            rw [List.getD_cons_zero, List.getD_cons_succ]
            simpa using hgt
        | succ k =>
            rw [List.getD_cons_succ, List.getD_cons_succ]
            exact hfirst k (by omega)
  · rcases pd_loop_min amin inc t 1 ⟨h0, amin⟩ ⟨h0, amin⟩ with
      ⟨heq, hbound⟩ | ⟨j, hj, hd, ha, hlt, hbound, hfirst⟩
    · refine ⟨0, by simp, ?_, ?_, ?_, fun m hm => absurd hm (Nat.not_lt_zero m)⟩
      · rw [hcb, heq]
        simp
      · rw [hcb, heq]
        simp
      · intro m hm
        cases m with
        | zero => simp
        | succ k =>
            rw [List.getD_cons_succ, List.getD_cons_zero]
            simpa using hbound k (by simpa using hm)
    · refine ⟨j + 1, by simpa using Nat.succ_lt_succ hj, ?_, ?_, ?_, ?_⟩
      · rw [hcb, List.getD_cons_succ]
        exact hd
      · rw [hcb, ha, show 1 + j = j + 1 by omega]
      · intro m hm
        cases m with
        | zero =>
            rw [List.getD_cons_succ, List.getD_cons_zero]
            exact le_of_lt (by simpa using hlt)
        | succ k =>
            rw [List.getD_cons_succ, List.getD_cons_succ]
            exact hbound k (by simpa using hm)
      · intro m hm
        cases m with
        | zero =>
            rw [List.getD_cons_succ, List.getD_cons_zero]
            simpa using hlt
        | succ k =>
            rw [List.getD_cons_succ, List.getD_cons_succ]
            exact hfirst k (by omega)

/-- Witness for C10: the extrema characterisation applied to the concrete
frame `angle_min = 0`, `angle_increment = 1`, `ranges = [1, 3, 2]`. -/
theorem C10_point_dist_extrema_witness :
    ([(1 : ℝ), 3, 2] ≠ []) ∧
      ((∃ j, j < ([(1 : ℝ), 3, 2]).length ∧
        (point_dist_scan_cb ⟨0, 0, 1, [(1 : ℝ), 3, 2]⟩).1.distance =
          ([(1 : ℝ), 3, 2]).getD j 0 ∧
        (point_dist_scan_cb ⟨0, 0, 1, [(1 : ℝ), 3, 2]⟩).1.angle =
          0 + (j : ℝ) * 1 ∧
        (∀ m, m < ([(1 : ℝ), 3, 2]).length →
          ([(1 : ℝ), 3, 2]).getD m 0 ≤ ([(1 : ℝ), 3, 2]).getD j 0) ∧
        (∀ m, m < j →
          ([(1 : ℝ), 3, 2]).getD m 0 < ([(1 : ℝ), 3, 2]).getD j 0)) ∧
      (∃ k, k < ([(1 : ℝ), 3, 2]).length ∧
        (point_dist_scan_cb ⟨0, 0, 1, [(1 : ℝ), 3, 2]⟩).2.distance =
          ([(1 : ℝ), 3, 2]).getD k 0 ∧
        (point_dist_scan_cb ⟨0, 0, 1, [(1 : ℝ), 3, 2]⟩).2.angle =
          0 + (k : ℝ) * 1 ∧
        (∀ m, m < ([(1 : ℝ), 3, 2]).length →
          ([(1 : ℝ), 3, 2]).getD k 0 ≤ ([(1 : ℝ), 3, 2]).getD m 0) ∧
        (∀ m, m < k →
          ([(1 : ℝ), 3, 2]).getD k 0 < ([(1 : ℝ), 3, 2]).getD m 0))) :=
  ⟨by simp, C10_point_dist_extrema 0 0 1 [1, 3, 2] (by simp)⟩
